import Mathlib

/-!
# Verification of the data-generation projection and annotation engine

Shallow embedding of the geometric projection / annotation core of the
repository (modules `sdg_engine.core.interfaces.blender.utils`,
`blender_sdg.core.interfaces.blender.utils`,
`sdg_engine.core.interfaces.blender.render` and
`sdg_engine.core.interfaces.blender.scene`).

Python floats are modelled as rationals (`ℚ`), Python strings as `List Char`,
Python `None`-able values as `Option`, and a raised `ValueError` as the
`BoxResult.err` constructor.  Division in `ℚ` is total (`x / 0 = 0`); every
division the embedded code performs on the inputs considered here has a
nonzero divisor, matching the Python semantics on those inputs.
-/

namespace DataGen

/-- A 3D vector (`mathutils.Vector` restricted to the fields the code reads). -/
structure Vec3 where
  x : ℚ
  y : ℚ
  z : ℚ
  deriving DecidableEq, Repr

/-- The camera frame: the first three corners of
`camera.object.data.view_frame(...)`, already negated by the caller
(`frame = [-v for v in ...view_frame(...)[:3]]`).  The code only ever indexes
positions 0, 1 and 2, so the frame is modelled as exactly three corners. -/
structure Frame where
  c0 : Vec3
  c1 : Vec3
  c2 : Vec3
  deriving DecidableEq, Repr

/-- Vector-by-scalar division `v / s` (componentwise, as `mathutils` does). -/
def vecDivScalar (v : Vec3) (s : ℚ) : Vec3 :=
  ⟨v.x / s, v.y / s, v.z / s⟩

/-- One step of the in-loop frame rescaling
`frame = [(v / (v.z / z)) for v in frame]`. -/
def scaleFrameTo (f : Frame) (z : ℚ) : Frame :=
  ⟨vecDivScalar f.c0 (f.c0.z / z),
   vecDivScalar f.c1 (f.c1.z / z),
   vecDivScalar f.c2 (f.c2.z / z)⟩

/-- The loop body of `calculate_normalized_coordinates`
(src/sdg_engine/core/interfaces/blender/utils.py lines 78-99; the blender_sdg
variant at lines 75-96 is textually identical).  The Python loop reassigns
`frame` inside the loop, so the rescaled frame carries over to the next
iteration; the recursion threads it explicitly. -/
def calcNormAux (frame : Frame) : List Vec3 → List ℚ × List ℚ
  | [] => ([], [])
  | v :: rest =>
    let z := -v.z
    if z ≤ 0 then
      calcNormAux frame rest
    else
      let f := scaleFrameTo frame z
      let min_x := f.c1.x
      let max_x := f.c2.x
      let min_y := f.c0.y
      let max_y := f.c1.y
      let x := (v.x - min_x) / (max_x - min_x)
      let y := (v.y - min_y) / (max_y - min_y)
      let p := calcNormAux f rest
      (x :: p.1, y :: p.2)

/-- Embedding of `calculate_normalized_coordinates(mesh, frame)`: the mesh is
modelled by
its ordered list of (camera-space) vertex coordinates `v.co`. -/
def calculate_normalized_coordinates (vertices : List Vec3) (frame : Frame) :
    List ℚ × List ℚ :=
  calcNormAux frame vertices

/-- Python `min` of a nonempty list (the `[]` value is never consumed by the
embedded code: `compute_bounding_box` guards on emptiness first). -/
def listMin : List ℚ → ℚ
  | [] => 0
  | a :: r => r.foldl min a

/-- Python `max` of a nonempty list (same remark as `listMin`). -/
def listMax : List ℚ → ℚ
  | [] => 0
  | a :: r => r.foldl max a

/-- Embedding of `np.clip(q, 0.0, 1.0)`. -/
def clip01 (q : ℚ) : ℚ := max 0 (min q 1)

/-- Result of `compute_bounding_box`: `null` is Python `None`, `err` a raised
`ValueError`, and `box t u w h` the array `np.array([t, u, w, h])`. -/
inductive BoxResult where
  | null : BoxResult
  | err : BoxResult
  | box : ℚ → ℚ → ℚ → ℚ → BoxResult
  deriving DecidableEq, Repr

/-- Embedding of `make_bounding_box_relative` (both variants are identical):
raises
`ValueError` when `resolution is None`, otherwise scales the four bounds by
`(resolution[0], resolution[1])`. -/
def make_bounding_box_relative (top_x top_y bottom_x bottom_y : ℚ)
    (resolution : Option (ℚ × ℚ)) : Except Unit (ℚ × ℚ × ℚ × ℚ) :=
  match resolution with
  | none => .error ()
  | some r => .ok (top_x * r.1, top_y * r.2, bottom_x * r.1, bottom_y * r.2)

namespace SdgEngine

/-- Embedding of `compute_bounding_box` from
src/sdg_engine/core/interfaces/blender/utils.py lines 102-155.  This revision
flips the y coordinates (`ly = [1 - y for y in ly]`) before clamping.  The
final `top_x or 1e-6` / `top_y or 1e-6` is the Python truthiness test: a
coordinate equal to `0` is replaced by `1e-6`. -/
def compute_bounding_box (lx ly : List ℚ) (relative : Bool)
    (resolution : Option (ℚ × ℚ)) : BoxResult :=
  if lx = [] ∨ ly = [] then .null
  else if clip01 (listMin lx) = clip01 (listMax lx) ∨
      clip01 (listMin (ly.map (fun y => 1 - y))) =
        clip01 (listMax (ly.map (fun y => 1 - y))) then .null
  else
    match
      (if relative then
        make_bounding_box_relative (clip01 (listMin lx))
          (clip01 (listMin (ly.map (fun y => 1 - y))))
          (clip01 (listMax lx))
          (clip01 (listMax (ly.map (fun y => 1 - y)))) resolution
      else
        .ok (clip01 (listMin lx),
          clip01 (listMin (ly.map (fun y => 1 - y))),
          clip01 (listMax lx),
          clip01 (listMax (ly.map (fun y => 1 - y)))))
    with
    | .error _ => .err
    | .ok (tx, ty, bx, bY) =>
      .box (if tx = 0 then 1 / 1000000 else tx)
        (if ty = 0 then 1 / 1000000 else ty)
        (bx - tx) (bY - ty)

end SdgEngine

namespace BlenderSdg

/-- Embedding of `compute_bounding_box` from
src/blender_sdg/core/interfaces/blender/utils.py lines 99-146: identical to
the sdg_engine revision except that it does not flip the y coordinates. -/
def compute_bounding_box (lx ly : List ℚ) (relative : Bool)
    (resolution : Option (ℚ × ℚ)) : BoxResult :=
  if lx = [] ∨ ly = [] then .null
  else if clip01 (listMin lx) = clip01 (listMax lx) ∨
      clip01 (listMin ly) = clip01 (listMax ly) then .null
  else
    match
      (if relative then
        make_bounding_box_relative (clip01 (listMin lx)) (clip01 (listMin ly))
          (clip01 (listMax lx)) (clip01 (listMax ly)) resolution
      else
        .ok (clip01 (listMin lx), clip01 (listMin ly),
          clip01 (listMax lx), clip01 (listMax ly)))
    with
    | .error _ => .err
    | .ok (tx, ty, bx, bY) =>
      .box (if tx = 0 then 1 / 1000000 else tx)
        (if ty = 0 then 1 / 1000000 else ty)
        (bx - tx) (bY - ty)

end BlenderSdg

/-! ## Annotation builder (`BlenderRenderer.annotate_snapshot`) -/

/-- Embedding of `SnapshotAnnotation(bbox=..., categories=...)`: parallel
lists of boxes
and positional category indices. -/
structure SnapshotAnnotation where
  bbox : List (ℚ × ℚ × ℚ × ℚ)
  categories : List ℕ
  deriving DecidableEq, Repr

/-- Embedding of `Annotation(file_name=..., objects=...)`; Python strings are
modelled as
`List Char`. -/
structure Annotation where
  file_name : List Char
  objects : SnapshotAnnotation
  deriving DecidableEq, Repr

/-- The `for i, element in enumerate(elements)` loop of `annotate_snapshot`
(src/sdg_engine/core/interfaces/blender/render.py lines 112-124): elements
whose bounding box is `None` are skipped, retained elements append their box
and their positional index `i`. -/
def annotateLoop (boxOf : α → Option (ℚ × ℚ × ℚ × ℚ)) :
    List α → ℕ → List (ℚ × ℚ × ℚ × ℚ) × List ℕ
  | [], _ => ([], [])
  | e :: rest, i =>
    match boxOf e with
    | none => annotateLoop boxOf rest (i + 1)
    | some b =>
      let p := annotateLoop boxOf rest (i + 1)
      (b :: p.1, i :: p.2)

/-- Embedding of `annotate_snapshot` (render.py lines 84-126).  The
per-element call
`utils.create_bounding_box(scene, camera, element, ...)` depends on the
external scene host (Blender matrices and meshes); it is abstracted as the
function `boxOf camera element`.  `cameras[0]` on an empty camera list raises
`IndexError`, modelled as `none`. -/
def annotate_snapshot (boxOf : γ → α → Option (ℚ × ℚ × ℚ × ℚ))
    (cameras : List γ) (elements : List α) (fileName : List Char) :
    Option Annotation :=
  match cameras with
  | [] => none
  | camera :: _ =>
    let p := annotateLoop (boxOf camera) elements 0
    some ⟨fileName, ⟨p.1, p.2⟩⟩

/-! ## Output file naming and the background sweep
(`generate_dataset_from_config`, render.py lines 129-231) -/

/-- The character of a decimal digit (`Char.ofNat (48 + d)` is `'0'`–`'9'`
for `d < 10`). -/
def digitChar (d : ℕ) : Char := Char.ofNat (48 + d)

/-- Big-endian decimal digits of a natural number (the digits of Python's
`repr`/`format` of a nonnegative int). -/
def decDigits (n : ℕ) : List ℕ :=
  if _h : n < 10 then [n] else decDigits (n / 10) ++ [n % 10]
decreasing_by exact Nat.div_lt_self (by omega) (by omega)

/-- Python `f"{n:04d}"`: the decimal representation of `n` left-padded with
zeros to at least four characters. -/
def padDec4 (n : ℕ) : List Char :=
  (List.replicate (4 - (decDigits n).length) 0 ++ decDigits n).map digitChar

/-- Embedding of the derived output basename (render.py line 200): the
snapshot id's hex form, an underscore, and the background index zero-padded
to width 4.  The hex form of the external uuid is a 32-character string,
modelled as an arbitrary character list (with its fixed length stated as a
hypothesis where needed). -/
def render_file_base_name (idHex : List Char) (bgIdx : ℕ) : List Char :=
  idHex ++ ['_'] ++ padDec4 bgIdx

/-- One render-and-annotate pass of the inner background loop (render.py
lines 183-219): which background was applied (`none` = the solid-color
fallback), the render-target resolution in effect when `render_snapshot` is
invoked, and the derived output basename. -/
structure RenderPass where
  background : Option (List Char)
  resolution : ℕ × ℕ
  fileBase : List Char
  deriving DecidableEq, Repr

/-- Embedding of the background-set fallback (render.py line 181): the list
of background images when non-empty, otherwise the one-element sentinel
list holding the solid-color fallback. -/
def backgrounds_to_render (allBackgroundImages : List (List Char)) :
    List (Option (List Char)) :=
  if allBackgroundImages = [] then [none] else allBackgroundImages.map some

/-- The inner `for bg_idx, background_filepath in enumerate(...)` loop for a
single snapshot (render.py lines 183-219), abstracted to the sequence of
render passes it performs.  `resCfg` is the configured renderer resolution
(`renderer.resolution`); `imgRes path` is the native pixel size of a
background image (external), to which `scene.set_background_image` resizes
the render target; in the solid-color branch the code restores
`resCfg` before rendering. -/
def snapshot_passes (resCfg : ℕ × ℕ) (imgRes : List Char → ℕ × ℕ)
    (idHex : List Char) (allBackgroundImages : List (List Char)) :
    List RenderPass :=
  (backgrounds_to_render allBackgroundImages).enum.map (fun p =>
    match p.2 with
    | some path => ⟨some path, imgRes path, render_file_base_name idHex p.1⟩
    | none => ⟨none, resCfg, render_file_base_name idHex p.1⟩)

/-- The full sweep loop of `generate_dataset_from_config` (render.py lines
174-220), abstracted to the sequence of render passes: for each snapshot (in
sweep order, identified by its uuid hex), the inner background loop runs. -/
def generate_passes (resCfg : ℕ × ℕ) (imgRes : List Char → ℕ × ℕ)
    (snapshotIdHexes : List (List Char))
    (allBackgroundImages : List (List Char)) : List RenderPass :=
  snapshotIdHexes.flatMap (fun idHex =>
    snapshot_passes resCfg imgRes idHex allBackgroundImages)

/-! ## Helper lemmas -/

lemma foldl_min_le_init (r : List ℚ) : ∀ a : ℚ, r.foldl min a ≤ a := by
  induction r with
  | nil => intro a; simp
  | cons b r ih =>
    intro a
    calc (b :: r).foldl min a = r.foldl min (min a b) := rfl
    _ ≤ min a b := ih (min a b)
    _ ≤ a := min_le_left a b

lemma init_le_foldl_max (r : List ℚ) : ∀ a : ℚ, a ≤ r.foldl max a := by
  induction r with
  | nil => intro a; simp
  | cons b r ih =>
    intro a
    calc a ≤ max a b := le_max_left a b
    _ ≤ r.foldl max (max a b) := ih (max a b)
    _ = (b :: r).foldl max a := rfl

lemma listMin_le_listMax {l : List ℚ} (hl : l ≠ []) : listMin l ≤ listMax l := by
  match l with
  | [] => exact absurd rfl hl
  | a :: r =>
    calc listMin (a :: r) = r.foldl min a := rfl
    _ ≤ a := foldl_min_le_init r a
    _ ≤ r.foldl max a := init_le_foldl_max r a
    _ = listMax (a :: r) := rfl

lemma foldl_max_lt {c : ℚ} (r : List ℚ) :
    ∀ a : ℚ, a < c → (∀ x ∈ r, x < c) → r.foldl max a < c := by
  induction r with
  | nil => intro a ha _; simpa using ha
  | cons b r ih =>
    intro a ha hr
    exact ih (max a b) (max_lt ha (hr b (by simp))) (fun x hx => hr x (by simp [hx]))

lemma lt_foldl_min {c : ℚ} (r : List ℚ) :
    ∀ a : ℚ, c < a → (∀ x ∈ r, c < x) → c < r.foldl min a := by
  induction r with
  | nil => intro a ha _; simpa using ha
  | cons b r ih =>
    intro a ha hr
    exact ih (min a b) (lt_min ha (hr b (by simp))) (fun x hx => hr x (by simp [hx]))

lemma listMax_lt {l : List ℚ} {c : ℚ} (hl : l ≠ []) (h : ∀ x ∈ l, x < c) :
    listMax l < c := by
  match l with
  | [] => exact absurd rfl hl
  | a :: r =>
    exact foldl_max_lt r a (h a (by simp)) (fun x hx => h x (by simp [hx]))

lemma lt_listMin {l : List ℚ} {c : ℚ} (hl : l ≠ []) (h : ∀ x ∈ l, c < x) :
    c < listMin l := by
  match l with
  | [] => exact absurd rfl hl
  | a :: r =>
    exact lt_foldl_min r a (h a (by simp)) (fun x hx => h x (by simp [hx]))

lemma clip01_nonneg (q : ℚ) : 0 ≤ clip01 q := le_max_left 0 (min q 1)

lemma clip01_le_one (q : ℚ) : clip01 q ≤ 1 :=
  max_le (by norm_num) (min_le_right q 1)

lemma clip01_mono {p q : ℚ} (h : p ≤ q) : clip01 p ≤ clip01 q :=
  max_le_max le_rfl (min_le_min h le_rfl)

lemma clip01_of_nonpos {q : ℚ} (h : q ≤ 0) : clip01 q = 0 := by
  unfold clip01
  rw [min_eq_left (by linarith), max_eq_left h]

lemma clip01_of_one_le {q : ℚ} (h : 1 ≤ q) : clip01 q = 1 := by
  unfold clip01
  rw [min_eq_right h, max_eq_right (by norm_num)]

lemma foldl_min_map_one_sub (r : List ℚ) :
    ∀ a : ℚ, (r.map (fun y => 1 - y)).foldl min (1 - a) = 1 - r.foldl max a := by
  induction r with
  | nil => intro a; simp
  | cons b r ih =>
    intro a
    calc ((b :: r).map (fun y => 1 - y)).foldl min (1 - a)
        = (r.map (fun y => 1 - y)).foldl min (min (1 - a) (1 - b)) := rfl
    _ = (r.map (fun y => 1 - y)).foldl min (1 - max a b) := by
        rw [min_sub_sub_left]
    _ = 1 - r.foldl max (max a b) := ih (max a b)
    _ = 1 - (b :: r).foldl max a := rfl

lemma foldl_max_map_one_sub (r : List ℚ) :
    ∀ a : ℚ, (r.map (fun y => 1 - y)).foldl max (1 - a) = 1 - r.foldl min a := by
  induction r with
  | nil => intro a; simp
  | cons b r ih =>
    intro a
    calc ((b :: r).map (fun y => 1 - y)).foldl max (1 - a)
        = (r.map (fun y => 1 - y)).foldl max (max (1 - a) (1 - b)) := rfl
    _ = (r.map (fun y => 1 - y)).foldl max (1 - min a b) := by
        rw [max_sub_sub_left]
    _ = 1 - r.foldl min (min a b) := ih (min a b)
    _ = 1 - (b :: r).foldl min a := rfl

lemma listMin_map_one_sub {l : List ℚ} (hl : l ≠ []) :
    listMin (l.map (fun y => 1 - y)) = 1 - listMax l := by
  match l with
  | [] => exact absurd rfl hl
  | a :: r => exact foldl_min_map_one_sub r a

lemma listMax_map_one_sub {l : List ℚ} (hl : l ≠ []) :
    listMax (l.map (fun y => 1 - y)) = 1 - listMin l := by
  match l with
  | [] => exact absurd rfl hl
  | a :: r => exact foldl_max_map_one_sub r a

/-- Characterization of when the clamped min and max of an axis coincide. -/
lemma clip01_eq_clip01_iff {m M : ℚ} (h : m ≤ M) :
    clip01 m = clip01 M ↔ M ≤ 0 ∨ 1 ≤ m ∨ m = M := by
  constructor
  · intro he
    by_contra hc
    push_neg at hc
    obtain ⟨h1, h2, h3⟩ := hc
    unfold clip01 at he
    rw [min_eq_left h2.le] at he
    rcases le_or_lt M 1 with hM1 | hM1
    · rw [min_eq_left hM1, max_eq_right h1.le] at he
      exact absurd he (ne_of_lt (max_lt h1 (lt_of_le_of_ne h h3)))
    · rw [min_eq_right hM1.le] at he
      have h4 : (0 : ℚ) ⊔ 1 = 1 := max_eq_right (by norm_num)
      rw [h4] at he
      exact absurd he (ne_of_lt (max_lt (by norm_num) h2))
  · rintro (h1 | h1 | h1)
    · rw [clip01_of_nonpos (le_trans h h1), clip01_of_nonpos h1]
    · rw [clip01_of_one_le h1, clip01_of_one_le (le_trans h1 h)]
    · rw [h1]

/-- The degeneracy test on the flipped y list is equivalent to the same test
on the original list. -/
lemma clip01_flip_collapse_iff {l : List ℚ} (hl : l ≠ []) :
    clip01 (listMin (l.map (fun y => 1 - y))) =
        clip01 (listMax (l.map (fun y => 1 - y))) ↔
      clip01 (listMin l) = clip01 (listMax l) := by
  rw [listMin_map_one_sub hl, listMax_map_one_sub hl,
    clip01_eq_clip01_iff (by linarith [listMin_le_listMax hl]),
    clip01_eq_clip01_iff (listMin_le_listMax hl)]
  constructor
  · rintro (h1 | h1 | h1)
    · exact Or.inr (Or.inl (by linarith))
    · exact Or.inl (by linarith)
    · exact Or.inr (Or.inr (by linarith))
  · rintro (h1 | h1 | h1)
    · exact Or.inr (Or.inl (by linarith))
    · exact Or.inl (by linarith)
    · exact Or.inr (Or.inr (by linarith))

lemma sdg_null_of_collapse {lx ly : List ℚ} (rel : Bool) (res : Option (ℚ × ℚ))
    (hlx : lx ≠ []) (hly : ly ≠ [])
    (h : clip01 (listMin lx) = clip01 (listMax lx) ∨
      clip01 (listMin (ly.map (fun y => 1 - y))) =
        clip01 (listMax (ly.map (fun y => 1 - y)))) :
    SdgEngine.compute_bounding_box lx ly rel res = .null := by
  unfold SdgEngine.compute_bounding_box
  rw [if_neg (by simp [hlx, hly]), if_pos h]

lemma sdg_box_formula {lx ly : List ℚ} (hlx : lx ≠ []) (hly : ly ≠ [])
    (hx : clip01 (listMin lx) ≠ clip01 (listMax lx))
    (hy : clip01 (listMin (ly.map (fun y => 1 - y))) ≠
      clip01 (listMax (ly.map (fun y => 1 - y)))) (W H : ℚ) :
    SdgEngine.compute_bounding_box lx ly true (some (W, H)) =
      .box
        (if clip01 (listMin lx) * W = 0 then 1 / 1000000
          else clip01 (listMin lx) * W)
        (if clip01 (listMin (ly.map (fun y => 1 - y))) * H = 0 then 1 / 1000000
          else clip01 (listMin (ly.map (fun y => 1 - y))) * H)
        (clip01 (listMax lx) * W - clip01 (listMin lx) * W)
        (clip01 (listMax (ly.map (fun y => 1 - y))) * H -
          clip01 (listMin (ly.map (fun y => 1 - y))) * H) := by
  unfold SdgEngine.compute_bounding_box
  rw [if_neg (by simp [hlx, hly]), if_neg (by push_neg; exact ⟨hx, hy⟩)]
  simp [make_bounding_box_relative]

lemma sdg_box_formula_abs {lx ly : List ℚ} (hlx : lx ≠ []) (hly : ly ≠ [])
    (hx : clip01 (listMin lx) ≠ clip01 (listMax lx))
    (hy : clip01 (listMin (ly.map (fun y => 1 - y))) ≠
      clip01 (listMax (ly.map (fun y => 1 - y)))) (res : Option (ℚ × ℚ)) :
    SdgEngine.compute_bounding_box lx ly false res =
      .box
        (if clip01 (listMin lx) = 0 then 1 / 1000000 else clip01 (listMin lx))
        (if clip01 (listMin (ly.map (fun y => 1 - y))) = 0 then 1 / 1000000
          else clip01 (listMin (ly.map (fun y => 1 - y))))
        (clip01 (listMax lx) - clip01 (listMin lx))
        (clip01 (listMax (ly.map (fun y => 1 - y))) -
          clip01 (listMin (ly.map (fun y => 1 - y)))) := by
  unfold SdgEngine.compute_bounding_box
  rw [if_neg (by simp [hlx, hly]), if_neg (by push_neg; exact ⟨hx, hy⟩)]
  simp

lemma sdg_err_of_no_resolution {lx ly : List ℚ} (hlx : lx ≠ []) (hly : ly ≠ [])
    (hx : clip01 (listMin lx) ≠ clip01 (listMax lx))
    (hy : clip01 (listMin (ly.map (fun y => 1 - y))) ≠
      clip01 (listMax (ly.map (fun y => 1 - y)))) :
    SdgEngine.compute_bounding_box lx ly true none = .err := by
  unfold SdgEngine.compute_bounding_box
  rw [if_neg (by simp [hlx, hly]), if_neg (by push_neg; exact ⟨hx, hy⟩)]
  simp [make_bounding_box_relative]

lemma sdg_ne_err_of_not_relative (lx ly : List ℚ) (res : Option (ℚ × ℚ)) :
    SdgEngine.compute_bounding_box lx ly false res ≠ .err := by
  unfold SdgEngine.compute_bounding_box
  by_cases h1 : lx = [] ∨ ly = []
  · rw [if_pos h1]; simp
  · rw [if_neg h1]
    by_cases h2 : clip01 (listMin lx) = clip01 (listMax lx) ∨
        clip01 (listMin (ly.map (fun y => 1 - y))) =
          clip01 (listMax (ly.map (fun y => 1 - y)))
    · rw [if_pos h2]; simp
    · rw [if_neg h2]; simp

/-- If every vertex fails the strict depth test `-v.z > 0`, the loop of
`calculate_normalized_coordinates` appends nothing, whatever the current
frame. -/
lemma calcNormAux_all_invisible {verts : List Vec3}
    (h : ∀ v ∈ verts, -v.z ≤ 0) (frame : Frame) :
    calcNormAux frame verts = ([], []) := by
  induction verts generalizing frame with
  | nil => rfl
  | cons v rest ih =>
    unfold calcNormAux
    rw [if_pos (h v (by simp))]
    exact ih (fun w hw => h w (by simp [hw])) frame

/-- A vertex with strictly positive depth makes both coordinate lists
nonempty. -/
lemma calcNormAux_ne_nil {verts : List Vec3} {v : Vec3} (hv : v ∈ verts)
    (hz : 0 < -v.z) (frame : Frame) :
    (calcNormAux frame verts).1 ≠ [] ∧ (calcNormAux frame verts).2 ≠ [] := by
  induction verts generalizing frame with
  | nil => cases hv
  | cons w rest ih =>
    unfold calcNormAux
    by_cases hw : -w.z ≤ 0
    · rw [if_pos hw]
      rcases List.mem_cons.mp hv with hv1 | hv1
      · subst hv1; linarith
      · exact ih hv1 frame
    · rw [if_neg hw]
      exact ⟨by simp, by simp⟩

/-- Restatement of `calcNormAux_ne_nil` for the wrapper. -/
lemma calculate_normalized_ne_nil {verts : List Vec3} {v : Vec3}
    (hv : v ∈ verts) (hz : 0 < -v.z) (frame : Frame) :
    (calculate_normalized_coordinates verts frame).1 ≠ [] ∧
      (calculate_normalized_coordinates verts frame).2 ≠ [] :=
  calcNormAux_ne_nil hv hz frame

lemma annotateLoop_length (f : α → Option (ℚ × ℚ × ℚ × ℚ)) (l : List α) (n : ℕ) :
    (annotateLoop f l n).1.length = (annotateLoop f l n).2.length := by
  induction l generalizing n with
  | nil => rfl
  | cons e rest ih =>
    unfold annotateLoop
    cases hfe : f e with
    | none => exact ih (n + 1)
    | some b => simpa using ih (n + 1)

lemma annotateLoop_zip (f : α → Option (ℚ × ℚ × ℚ × ℚ)) (l : List α) (n : ℕ) :
    ((annotateLoop f l n).1).zip (annotateLoop f l n).2 =
      (List.enumFrom n l).filterMap
        (fun p => (f p.2).map (fun b => (b, p.1))) := by
  induction l generalizing n with
  | nil => rfl
  | cons e rest ih =>
    unfold annotateLoop
    rw [List.enumFrom_cons, List.filterMap_cons]
    cases hfe : f e with
    | none => simpa using ih (n + 1)
    | some b => simpa using ih (n + 1)

lemma annotateLoop_lb (f : α → Option (ℚ × ℚ × ℚ × ℚ)) (l : List α) (n : ℕ) :
    ∀ i ∈ (annotateLoop f l n).2, n ≤ i := by
  induction l generalizing n with
  | nil => intro i hi; cases hi
  | cons e rest ih =>
    intro i hi
    unfold annotateLoop at hi
    cases hfe : f e with
    | none =>
      rw [hfe] at hi
      exact le_trans (Nat.le_succ n) (ih (n + 1) i hi)
    | some b =>
      rw [hfe] at hi
      rcases List.mem_cons.mp hi with h1 | h1
      · omega
      · exact le_trans (Nat.le_succ n) (ih (n + 1) i h1)

lemma annotateLoop_pairwise (f : α → Option (ℚ × ℚ × ℚ × ℚ)) (l : List α) (n : ℕ) :
    (annotateLoop f l n).2.Pairwise (fun i j => i < j) := by
  induction l generalizing n with
  | nil => exact List.Pairwise.nil
  | cons e rest ih =>
    unfold annotateLoop
    cases hfe : f e with
    | none => exact ih (n + 1)
    | some b =>
      refine List.Pairwise.cons ?_ (ih (n + 1))
      intro j hj
      exact lt_of_lt_of_le (Nat.lt_succ_self n) (annotateLoop_lb f rest (n + 1) j hj)

/-- Decimal decoding, the left inverse used to show decimal representations
are injective. -/
def decVal (l : List ℕ) : ℕ := l.foldl (fun a d => 10 * a + d) 0

lemma foldl_dec_replicate_zero (k : ℕ) :
    (List.replicate k 0).foldl (fun a d => 10 * a + d) 0 = 0 := by
  induction k with
  | zero => rfl
  | succ k ih => simpa [List.replicate_succ] using ih

lemma decVal_replicate_zero_append (k : ℕ) (l : List ℕ) :
    decVal (List.replicate k 0 ++ l) = decVal l := by
  unfold decVal
  rw [List.foldl_append, foldl_dec_replicate_zero]

lemma decVal_decDigits (n : ℕ) : decVal (decDigits n) = n := by
  induction n using Nat.strong_induction_on with
  | _ n ih =>
    rw [decDigits]
    by_cases h : n < 10
    · rw [dif_pos h]; simp [decVal]
    · rw [dif_neg h]
      unfold decVal
      rw [List.foldl_append]
      have hrec : decVal (decDigits (n / 10)) = n / 10 :=
        ih (n / 10) (Nat.div_lt_self (by omega) (by omega))
      unfold decVal at hrec
      rw [hrec]
      simp [Nat.div_add_mod]

lemma decDigits_lt_ten (n : ℕ) : ∀ d ∈ decDigits n, d < 10 := by
  induction n using Nat.strong_induction_on with
  | _ n ih =>
    intro d hd
    rw [decDigits] at hd
    by_cases h : n < 10
    · rw [dif_pos h] at hd
      simpa using lt_of_eq_of_lt (List.mem_singleton.mp hd) h
    · rw [dif_neg h] at hd
      rcases List.mem_append.mp hd with h1 | h1
      · exact ih (n / 10) (Nat.div_lt_self (by omega) (by omega)) d h1
      · rw [List.mem_singleton.mp h1]
        omega

lemma digitChar_inj :
    ∀ d < 10, ∀ e < 10, digitChar d = digitChar e → d = e := by
  decide

lemma map_digitChar_inj {l1 l2 : List ℕ} (h1 : ∀ d ∈ l1, d < 10)
    (h2 : ∀ d ∈ l2, d < 10) (h : l1.map digitChar = l2.map digitChar) :
    l1 = l2 := by
  induction l1 generalizing l2 with
  | nil =>
    cases l2 with
    | nil => rfl
    | cons e r => simp at h
  | cons d r ih =>
    cases l2 with
    | nil => simp at h
    | cons e r2 =>
      simp only [List.map_cons, List.cons.injEq] at h
      have hde : d = e :=
        digitChar_inj d (h1 d (by simp)) e (h2 e (by simp)) h.1
      rw [hde, ih (fun x hx => h1 x (by simp [hx]))
        (fun x hx => h2 x (by simp [hx])) h.2]

lemma padDec4_inj {m n : ℕ} (h : padDec4 m = padDec4 n) : m = n := by
  unfold padDec4 at h
  have hm : ∀ d ∈ List.replicate (4 - (decDigits m).length) 0 ++ decDigits m,
      d < 10 := by
    intro d hd
    rcases List.mem_append.mp hd with h1 | h1
    · rw [List.eq_of_mem_replicate h1]; omega
    · exact decDigits_lt_ten m d h1
  have hn : ∀ d ∈ List.replicate (4 - (decDigits n).length) 0 ++ decDigits n,
      d < 10 := by
    intro d hd
    rcases List.mem_append.mp hd with h1 | h1
    · rw [List.eq_of_mem_replicate h1]; omega
    · exact decDigits_lt_ten n d h1
  have hl := map_digitChar_inj hm hn h
  have hv := congrArg decVal hl
  rw [decVal_replicate_zero_append, decVal_replicate_zero_append,
    decVal_decDigits, decVal_decDigits] at hv
  exact hv

/-- The negated view-frame corners of the spec's reference scenario:
`[(0,1,1), (-1,-1,1), (1,-1,1)]`. -/
def cornerFrame : Frame := ⟨⟨0, 1, 1⟩, ⟨-1, -1, 1⟩, ⟨1, -1, 1⟩⟩

/-! ## Claims -/

/-- C2: for every mesh in which every vertex has depth `z = -v.z ≤ 0`
(including vertices exactly at depth 0, which the strict `z <= 0.0` test
excludes), `calculate_normalized_coordinates` returns two empty lists, and
`compute_bounding_box` applied to two empty lists returns `None`; neither
step raises an error (the embedding returns a value, never `err`). -/
theorem claim_C2 (verts : List Vec3) (frame : Frame)
    (h : ∀ v ∈ verts, -v.z ≤ 0) :
    calculate_normalized_coordinates verts frame = ([], []) ∧
    (∀ (rel : Bool) (res : Option (ℚ × ℚ)),
      SdgEngine.compute_bounding_box [] [] rel res = .null) := by
  refine ⟨calcNormAux_all_invisible h frame, ?_⟩
  intro rel res
  unfold SdgEngine.compute_bounding_box
  rw [if_pos (Or.inl rfl)]

/-- Witness for C2: a mesh with a vertex strictly behind the camera and one
exactly on the camera plane. -/
theorem claim_C2_witness :
    calculate_normalized_coordinates [⟨1, 2, 5⟩, ⟨0, 0, 0⟩] cornerFrame =
      ([], []) ∧
    (∀ (rel : Bool) (res : Option (ℚ × ℚ)),
      SdgEngine.compute_bounding_box [] [] rel res = .null) := by
  refine claim_C2 [⟨1, 2, 5⟩, ⟨0, 0, 0⟩] cornerFrame ?_
  intro v hv
  rcases List.mem_cons.mp hv with h1 | h1
  · rw [h1]; norm_num
  · rw [List.mem_singleton.mp h1]; norm_num

/-- C6: with frustum corners `[(0,1,1), (-1,-1,1), (1,-1,1)]` (indices 1 and
2 give the x extent, indices 0 and 1 the y extent) and a single vertex at
camera-space `(0,0,-1)`, `calculate_normalized_coordinates` yields the single
normalized point `(1/2, 1/2)`; `compute_bounding_box` of a single point is
`None` because min = max on both axes, and in general a single visible vertex
never yields a box. -/
theorem claim_C6 :
    calculate_normalized_coordinates [⟨0, 0, -1⟩] cornerFrame =
      ([1/2], [1/2]) ∧
    SdgEngine.compute_bounding_box [1/2] [1/2] true (some (256, 256)) =
      .null ∧
    (∀ (x y : ℚ) (rel : Bool) (res : Option (ℚ × ℚ)),
      SdgEngine.compute_bounding_box [x] [y] rel res = .null) := by
  refine ⟨?_, ?_, ?_⟩
  · norm_num [calculate_normalized_coordinates, calcNormAux, scaleFrameTo,
      vecDivScalar, cornerFrame]
  · exact sdg_null_of_collapse true (some (256, 256)) (by simp) (by simp)
      (Or.inl rfl)
  · intro x y rel res
    exact sdg_null_of_collapse rel res (by simp) (by simp) (Or.inl rfl)

/-- C10: the sdg_engine revision of `compute_bounding_box` agrees with the
blender_sdg revision applied to the vertically flipped y list
`[1 - y for y in ly]`; the two revisions differ exactly by that flip. -/
theorem claim_C10 (lx ly : List ℚ) (rel : Bool) (res : Option (ℚ × ℚ)) :
    SdgEngine.compute_bounding_box lx ly rel res =
      BlenderSdg.compute_bounding_box lx (ly.map (fun y => 1 - y)) rel res := by
  unfold SdgEngine.compute_bounding_box BlenderSdg.compute_bounding_box
  simp only [List.map_eq_nil_iff]

/-- C3: in `compute_bounding_box` the per-axis min/max are clamped to
`[0,1]` before the degeneracy check: (i) if the clamped min equals the
clamped max on either axis the result is `None`; (ii)/(iii) a non-empty
coordinate list lying entirely outside `[0,1]` on one axis collapses after
clamping and yields `None`; (iv) a box merely touching `0` or `1` with
distinct clamped min and max on both axes remains non-null (a box is
returned, provided a resolution is supplied when one is required). -/
theorem claim_C3 (lx ly : List ℚ) (rel : Bool) (res : Option (ℚ × ℚ))
    (hlx : lx ≠ []) (hly : ly ≠ []) :
    ((clip01 (listMin lx) = clip01 (listMax lx) ∨
        clip01 (listMin ly) = clip01 (listMax ly)) →
      SdgEngine.compute_bounding_box lx ly rel res = .null) ∧
    ((∀ x ∈ lx, x < 0) ∨ (∀ x ∈ lx, 1 < x) →
      SdgEngine.compute_bounding_box lx ly rel res = .null) ∧
    ((∀ y ∈ ly, y < 0) ∨ (∀ y ∈ ly, 1 < y) →
      SdgEngine.compute_bounding_box lx ly rel res = .null) ∧
    (clip01 (listMin lx) ≠ clip01 (listMax lx) →
      clip01 (listMin ly) ≠ clip01 (listMax ly) →
      (rel = true → res ≠ none) →
      ∃ t u w h, SdgEngine.compute_bounding_box lx ly rel res =
        .box t u w h) := by
  have hnull : clip01 (listMin lx) = clip01 (listMax lx) ∨
      clip01 (listMin ly) = clip01 (listMax ly) →
      SdgEngine.compute_bounding_box lx ly rel res = .null := by
    rintro (h1 | h1)
    · exact sdg_null_of_collapse rel res hlx hly (Or.inl h1)
    · exact sdg_null_of_collapse rel res hlx hly
        (Or.inr ((clip01_flip_collapse_iff hly).mpr h1))
  refine ⟨hnull, ?_, ?_, ?_⟩
  · rintro (h1 | h1)
    · refine hnull (Or.inl ?_)
      have hM : listMax lx < 0 := listMax_lt hlx h1
      have hm : listMin lx ≤ listMax lx := listMin_le_listMax hlx
      rw [clip01_of_nonpos (by linarith), clip01_of_nonpos hM.le]
    · refine hnull (Or.inl ?_)
      have hm : 1 < listMin lx := lt_listMin hlx h1
      have hM : listMin lx ≤ listMax lx := listMin_le_listMax hlx
      rw [clip01_of_one_le hm.le, clip01_of_one_le (by linarith)]
  · rintro (h1 | h1)
    · refine hnull (Or.inr ?_)
      have hM : listMax ly < 0 := listMax_lt hly h1
      have hm : listMin ly ≤ listMax ly := listMin_le_listMax hly
      rw [clip01_of_nonpos (by linarith), clip01_of_nonpos hM.le]
    · refine hnull (Or.inr ?_)
      have hm : 1 < listMin ly := lt_listMin hly h1
      have hM : listMin ly ≤ listMax ly := listMin_le_listMax hly
      rw [clip01_of_one_le hm.le, clip01_of_one_le (by linarith)]
  · intro hx hy hres
    have hy2 : clip01 (listMin (ly.map (fun y => 1 - y))) ≠
        clip01 (listMax (ly.map (fun y => 1 - y))) :=
      fun hc => hy ((clip01_flip_collapse_iff hly).mp hc)
    cases rel with
    | false => exact ⟨_, _, _, _, sdg_box_formula_abs hlx hly hx hy2 res⟩
    | true =>
      match res, hres rfl with
      | some (W, H), _ => exact ⟨_, _, _, _, sdg_box_formula hlx hly hx hy2 W H⟩

/-- Witness for C3: `lx` touching the frame edge at `0`, applied once with an
off-screen x list (null) and once with an in-frame list (a box). -/
theorem claim_C3_witness :
    SdgEngine.compute_bounding_box [2, 3] [1/4, 3/4] true (some (100, 50)) =
      .null ∧
    (∃ t u w h,
      SdgEngine.compute_bounding_box [0, 1/2] [1/4, 3/4] true (some (100, 50)) =
        .box t u w h) := by
  constructor
  · exact (claim_C3 [2, 3] [1/4, 3/4] true (some (100, 50)) (by simp)
      (by simp)).2.1 (Or.inr (by norm_num))
  · exact (claim_C3 [0, 1/2] [1/4, 3/4] true (some (100, 50)) (by simp)
      (by simp)).2.2.2 (by norm_num [clip01, listMin, listMax])
      (by norm_num [clip01, listMin, listMax]) (fun _ => by simp)

/-- C4 as corrected: a call with `relative=True` and no resolution raises
`ValueError` exactly when it reaches the scaling step, i.e. when both lists
are non-empty and the clamped bounds are non-degenerate on both axes; in
every other case (an empty list, or a clamped collapse on either axis)
`None` is returned first and no error is raised; such a call never returns
a box; and a call with `relative=False` never raises. -/
theorem claim_C4_amended (lx ly : List ℚ) (res : Option (ℚ × ℚ)) :
    (lx ≠ [] → ly ≠ [] →
      clip01 (listMin lx) ≠ clip01 (listMax lx) →
      clip01 (listMin ly) ≠ clip01 (listMax ly) →
      SdgEngine.compute_bounding_box lx ly true none = .err) ∧
    (lx = [] ∨ ly = [] ∨
        clip01 (listMin lx) = clip01 (listMax lx) ∨
        clip01 (listMin ly) = clip01 (listMax ly) →
      SdgEngine.compute_bounding_box lx ly true none = .null) ∧
    (∀ t u w h,
      SdgEngine.compute_bounding_box lx ly true none ≠ .box t u w h) ∧
    SdgEngine.compute_bounding_box lx ly false res ≠ .err := by
  refine ⟨?_, ?_, ?_, sdg_ne_err_of_not_relative lx ly res⟩
  · intro hlx hly hx hy
    exact sdg_err_of_no_resolution hlx hly hx
      (fun hc => hy ((clip01_flip_collapse_iff hly).mp hc))
  · intro h
    by_cases h1 : lx = [] ∨ ly = []
    · unfold SdgEngine.compute_bounding_box
      rw [if_pos h1]
    · push_neg at h1
      rcases h with he | he | hd | hd
      · exact absurd he h1.1
      · exact absurd he h1.2
      · exact sdg_null_of_collapse true none h1.1 h1.2 (Or.inl hd)
      · exact sdg_null_of_collapse true none h1.1 h1.2
          (Or.inr ((clip01_flip_collapse_iff h1.2).mpr hd))
  · intro t u w h
    unfold SdgEngine.compute_bounding_box
    by_cases h1 : lx = [] ∨ ly = []
    · rw [if_pos h1]; simp
    · rw [if_neg h1]
      by_cases h2 : clip01 (listMin lx) = clip01 (listMax lx) ∨
          clip01 (listMin (ly.map (fun y => 1 - y))) =
            clip01 (listMax (ly.map (fun y => 1 - y)))
      · rw [if_pos h2]; simp
      · rw [if_neg h2]; simp [make_bounding_box_relative]

/-- Counterexample to C4 as stated: with `relative=True` and no resolution
but empty coordinate lists, `compute_bounding_box` returns `None` without
raising any error, because the emptiness check precedes the scaling step. -/
theorem claim_C4_counterexample :
    SdgEngine.compute_bounding_box [] [] true none = .null ∧
    SdgEngine.compute_bounding_box [] [] true none ≠ .err := by
  have h : SdgEngine.compute_bounding_box [] [] true none = .null := by
    unfold SdgEngine.compute_bounding_box
    rw [if_pos (Or.inl rfl)]
  exact ⟨h, by rw [h]; simp⟩

/-- Witness for C4 (amended): non-degenerate lists do raise with
`relative=True` and no resolution; a degenerate x list returns `None`
without raising; and `relative=False` never raises. -/
theorem claim_C4_amended_witness :
    SdgEngine.compute_bounding_box [0, 1/2] [1/4, 3/4] true none = .err ∧
    SdgEngine.compute_bounding_box [1/2, 1/2] [1/4, 3/4] true none = .null ∧
    SdgEngine.compute_bounding_box [0, 1/2] [1/4, 3/4] false none ≠ .err := by
  refine ⟨?_, ?_, ?_⟩
  · exact (claim_C4_amended [0, 1/2] [1/4, 3/4] none).1 (by simp) (by simp)
      (by norm_num [clip01, listMin, listMax])
      (by norm_num [clip01, listMin, listMax])
  · exact (claim_C4_amended [1/2, 1/2] [1/4, 3/4] none).2.1
      (Or.inr (Or.inr (Or.inl (by norm_num [listMin, listMax]))))
  · exact (claim_C4_amended [0, 1/2] [1/4, 3/4] none).2.2.2

/-- C5: the four clamped bounds are scaled by the resolution first and only
then are width and height derived: `make_bounding_box_relative` on bounds
`(0.1, 0.2, 0.3, 0.4)` with resolution `(100, 50)` gives `(10, 10, 30, 20)`,
and `compute_bounding_box` on lists realizing those clamped bounds returns
`(10, 10, 20, 10)` (width 20, height 10); a scaled top coordinate equal to
exactly `0` is replaced by `1e-6` in the returned box (concrete instance and
the general replacement rule). -/
theorem claim_C5 :
    make_bounding_box_relative (1/10) (2/10) (3/10) (4/10) (some (100, 50)) =
      .ok (10, 10, 30, 20) ∧
    SdgEngine.compute_bounding_box [1/10, 3/10] [6/10, 8/10] true
      (some (100, 50)) = .box 10 10 20 10 ∧
    SdgEngine.compute_bounding_box [-1, 3/10] [6/10, 8/10] true
      (some (100, 50)) = .box (1/1000000) 10 30 10 ∧
    (∀ (lx ly : List ℚ) (W H t u w h : ℚ),
      SdgEngine.compute_bounding_box lx ly true (some (W, H)) =
        .box t u w h →
      (clip01 (listMin lx) * W = 0 → t = 1 / 1000000) ∧
      (clip01 (listMin (ly.map (fun y => 1 - y))) * H = 0 →
        u = 1 / 1000000)) := by
  refine ⟨by norm_num [make_bounding_box_relative], ?_, ?_, ?_⟩
  · rw [sdg_box_formula (by simp) (by simp)
      (by norm_num [clip01, listMin, listMax])
      (by norm_num [clip01, listMin, listMax]) 100 50]
    norm_num [clip01, listMin, listMax]
  · rw [sdg_box_formula (by simp) (by simp)
      (by norm_num [clip01, listMin, listMax])
      (by norm_num [clip01, listMin, listMax]) 100 50]
    norm_num [clip01, listMin, listMax]
  · intro lx ly W H t u w h hbox
    unfold SdgEngine.compute_bounding_box at hbox
    by_cases h1 : lx = [] ∨ ly = []
    · rw [if_pos h1] at hbox; exact absurd hbox (by simp)
    · rw [if_neg h1] at hbox
      by_cases h2 : clip01 (listMin lx) = clip01 (listMax lx) ∨
          clip01 (listMin (ly.map (fun y => 1 - y))) =
            clip01 (listMax (ly.map (fun y => 1 - y)))
      · rw [if_pos h2] at hbox; exact absurd hbox (by simp)
      · rw [if_neg h2] at hbox
        simp only [if_true, make_bounding_box_relative,
          BoxResult.box.injEq] at hbox
        obtain ⟨ht, hu, _, _⟩ := hbox
        constructor
        · intro h0; rw [← ht, if_pos h0]
        · intro h0; rw [← hu, if_pos h0]

/-- Witness for C5: the epsilon-replacement rule applied at a concrete input
whose clamped scaled top_x is exactly `0`. -/
theorem claim_C5_witness :
    SdgEngine.compute_bounding_box [-1, 3/10] [6/10, 8/10] true
      (some (100, 50)) = .box (1/1000000) 10 30 10 ∧
    (1 : ℚ) / 1000000 = 1 / 1000000 := by
  refine ⟨claim_C5.2.2.1, ?_⟩
  exact (claim_C5.2.2.2 [-1, 3/10] [6/10, 8/10] 100 50 (1/1000000) 10 30 10
    claim_C5.2.2.1).1 (by norm_num [clip01, listMin, listMax])

/-- Counterexample to C1 as stated: (i) a vertex set whose only visible
vertex projects strictly inside the frustum bounds (normalized `(1/2,1/2)`,
with `0 < 1/2 < 1`) yields a null box, not a non-null one, because a single
point is degenerate; (ii) a vertex set containing a strictly-inside vertex
whose clamped x range is the whole frame gets its zero top coordinate nudged
to `1e-6`, so `top_x + width = 100.000001 > 100 = resolution_width`. -/
theorem claim_C1_counterexample :
    (calculate_normalized_coordinates [⟨0, 0, -1⟩] cornerFrame =
        ([1/2], [1/2]) ∧
      (0 : ℚ) < 1/2 ∧ (1/2 : ℚ) < 1 ∧
      SdgEngine.compute_bounding_box [1/2] [1/2] true (some (100, 50)) =
        .null) ∧
    (calculate_normalized_coordinates [⟨-3, -1, -1⟩, ⟨3, 1, -1⟩, ⟨0, 0, -1⟩]
        cornerFrame = ([-1, 2, 1/2], [1, 0, 1/2]) ∧
      SdgEngine.compute_bounding_box [-1, 2, 1/2] [1, 0, 1/2] true
        (some (100, 50)) = .box (1/1000000) (1/1000000) 100 50 ∧
      ¬((1 : ℚ)/1000000 + 100 ≤ 100)) := by
  refine ⟨⟨?_, by norm_num, by norm_num, ?_⟩, ?_, ?_, by norm_num⟩
  · norm_num [calculate_normalized_coordinates, calcNormAux, scaleFrameTo,
      vecDivScalar, cornerFrame]
  · exact sdg_null_of_collapse true (some (100, 50)) (by simp) (by simp)
      (Or.inl rfl)
  · norm_num [calculate_normalized_coordinates, calcNormAux, scaleFrameTo,
      vecDivScalar, cornerFrame]
  · rw [sdg_box_formula (by simp) (by simp)
      (by norm_num [clip01, listMin, listMax])
      (by norm_num [clip01, listMin, listMax]) 100 50]
    norm_num [clip01, listMin, listMax]

/-- C1 as amended: for every vertex set with at least one vertex at strictly
positive depth, `compute_bounding_box` with `relative=True` and a positive
resolution returns either null (degenerate clamped bounds, e.g. a single
visible vertex) or a box with `0 ≤ top_x`, `0 < width` and
`top_x + width ≤ resolution_width + 1e-6` (the epsilon nudge of a zero top
coordinate can exceed the resolution by at most `1e-6`; analogous for y). -/
theorem claim_C1_amended (verts : List Vec3) (frame : Frame) (v : Vec3)
    (hv : v ∈ verts) (hz : 0 < -v.z) (W H : ℚ) (hW : 0 < W) (hH : 0 < H) :
    SdgEngine.compute_bounding_box
        (calculate_normalized_coordinates verts frame).1
        (calculate_normalized_coordinates verts frame).2 true
        (some (W, H)) = .null ∨
    ∃ t u w h,
      SdgEngine.compute_bounding_box
          (calculate_normalized_coordinates verts frame).1
          (calculate_normalized_coordinates verts frame).2 true
          (some (W, H)) = .box t u w h ∧
        0 ≤ t ∧ 0 < w ∧ t + w ≤ W + 1 / 1000000 ∧
        0 ≤ u ∧ 0 < h ∧ u + h ≤ H + 1 / 1000000 := by
  obtain ⟨hlx, hly⟩ := calculate_normalized_ne_nil hv hz frame
  set lx := (calculate_normalized_coordinates verts frame).1 with hlxdef
  set ly := (calculate_normalized_coordinates verts frame).2 with hlydef
  by_cases hx : clip01 (listMin lx) = clip01 (listMax lx)
  · exact Or.inl (sdg_null_of_collapse true (some (W, H)) hlx hly
      (Or.inl hx))
  by_cases hy : clip01 (listMin (ly.map (fun y => 1 - y))) =
      clip01 (listMax (ly.map (fun y => 1 - y)))
  · exact Or.inl (sdg_null_of_collapse true (some (W, H)) hlx hly
      (Or.inr hy))
  right
  rw [sdg_box_formula hlx hly hx hy W H]
  have ha0 : 0 ≤ clip01 (listMin lx) := clip01_nonneg _
  have hb1 : clip01 (listMax lx) ≤ 1 := clip01_le_one _
  have hab : clip01 (listMin lx) < clip01 (listMax lx) :=
    lt_of_le_of_ne (clip01_mono (listMin_le_listMax hlx)) hx
  have hc0 : 0 ≤ clip01 (listMin (ly.map (fun y => 1 - y))) := clip01_nonneg _
  have hd1 : clip01 (listMax (ly.map (fun y => 1 - y))) ≤ 1 := clip01_le_one _
  have hcd : clip01 (listMin (ly.map (fun y => 1 - y))) <
      clip01 (listMax (ly.map (fun y => 1 - y))) :=
    lt_of_le_of_ne (clip01_mono (listMin_le_listMax
      (fun hc => hly (List.map_eq_nil_iff.mp hc)))) hy
  have hbW : clip01 (listMax lx) * W ≤ W := by nlinarith
  have hdH : clip01 (listMax (ly.map (fun y => 1 - y))) * H ≤ H := by
    nlinarith
  refine ⟨_, _, _, _, rfl, ?_, by nlinarith, ?_, ?_, by nlinarith, ?_⟩
  · split_ifs with h0
    · norm_num
    · nlinarith
  · split_ifs with h0
    · rw [h0]; linarith
    · linarith
  · split_ifs with h0
    · norm_num
    · nlinarith
  · split_ifs with h0
    · rw [h0]; linarith
    · linarith

/-- Witness for C1 (amended): two visible vertices, one strictly inside the
frame, resolution `(100, 50)`. -/
theorem claim_C1_amended_witness :
    SdgEngine.compute_bounding_box
        (calculate_normalized_coordinates
          [⟨0, 0, -1⟩, ⟨1/2, 1/2, -1⟩] cornerFrame).1
        (calculate_normalized_coordinates
          [⟨0, 0, -1⟩, ⟨1/2, 1/2, -1⟩] cornerFrame).2 true
        (some (100, 50)) = .null ∨
    ∃ t u w h,
      SdgEngine.compute_bounding_box
          (calculate_normalized_coordinates
            [⟨0, 0, -1⟩, ⟨1/2, 1/2, -1⟩] cornerFrame).1
          (calculate_normalized_coordinates
            [⟨0, 0, -1⟩, ⟨1/2, 1/2, -1⟩] cornerFrame).2 true
          (some (100, 50)) = .box t u w h ∧
        0 ≤ t ∧ 0 < w ∧ t + w ≤ 100 + 1 / 1000000 ∧
        0 ≤ u ∧ 0 < h ∧ u + h ≤ 50 + 1 / 1000000 :=
  claim_C1_amended [⟨0, 0, -1⟩, ⟨1/2, 1/2, -1⟩] cornerFrame ⟨0, 0, -1⟩
    (List.mem_cons_self _ _) (by norm_num) 100 50 (by norm_num) (by norm_num)

/-- C7: whenever `annotate_snapshot` returns an annotation, `bbox` and
`categories` have equal length; the retained `(box, category)` pairs are
exactly, in element order, the elements with a non-null box paired with
their positional index in the supplied element list; and the category list
is strictly increasing. -/
theorem claim_C7 {γ α : Type} (boxOf : γ → α → Option (ℚ × ℚ × ℚ × ℚ))
    (camera : γ) (cams : List γ) (elements : List α) (fn : List Char)
    (ann : Annotation)
    (h : annotate_snapshot boxOf (camera :: cams) elements fn = some ann) :
    ann.objects.bbox.length = ann.objects.categories.length ∧
    ann.objects.bbox.zip ann.objects.categories =
      (List.enumFrom 0 elements).filterMap
        (fun p => (boxOf camera p.2).map (fun b => (b, p.1))) ∧
    ann.objects.categories.Pairwise (fun i j => i < j) := by
  have hann : ann =
      ⟨fn, ⟨(annotateLoop (boxOf camera) elements 0).1,
        (annotateLoop (boxOf camera) elements 0).2⟩⟩ := by
    have h2 := h
    unfold annotate_snapshot at h2
    exact (Option.some.injEq _ _ ▸ h2).symm
  rw [hann]
  exact ⟨annotateLoop_length (boxOf camera) elements 0,
    annotateLoop_zip (boxOf camera) elements 0,
    annotateLoop_pairwise (boxOf camera) elements 0⟩

/-- Witness for C7: one camera, three elements of which the second and third
have a box; categories are the positional indices `[1, 2]`. -/
theorem claim_C7_witness :
    ( Annotation.mk []
        ⟨[(1, 2, 3, 4), (1, 2, 3, 4)], [1, 2]⟩).objects.bbox.length =
      ( Annotation.mk []
        ⟨[(1, 2, 3, 4), (1, 2, 3, 4)], [1, 2]⟩).objects.categories.length ∧
    ( Annotation.mk []
        ⟨[(1, 2, 3, 4), (1, 2, 3, 4)], [1, 2]⟩).objects.bbox.zip
      ( Annotation.mk []
        ⟨[(1, 2, 3, 4), (1, 2, 3, 4)], [1, 2]⟩).objects.categories =
      (List.enumFrom 0 [(0 : ℕ), 7, 7]).filterMap
        (fun p =>
          ((fun (_ : Unit) (n : ℕ) =>
            if n = 7 then some ((1 : ℚ), (2 : ℚ), (3 : ℚ), (4 : ℚ))
            else none) () p.2).map (fun b => (b, p.1))) ∧
    ( Annotation.mk []
        ⟨[(1, 2, 3, 4), (1, 2, 3, 4)], [1, 2]⟩).objects.categories.Pairwise
      (fun i j => i < j) :=
  claim_C7
    (fun (_ : Unit) (n : ℕ) =>
      if n = 7 then some ((1 : ℚ), (2 : ℚ), (3 : ℚ), (4 : ℚ)) else none)
    () [] [0, 7, 7] []
    ( Annotation.mk [] ⟨[(1, 2, 3, 4), (1, 2, 3, 4)], [1, 2]⟩) rfl

/-- C8: when the resolved background set is empty, the orchestrator performs
exactly one render-and-annotate pass per snapshot, with the solid-color
fallback (`background = none`) and with the render-target resolution
restored to the configured resolution `resCfg` before rendering. -/
theorem claim_C8 (resCfg : ℕ × ℕ) (imgRes : List Char → ℕ × ℕ)
    (snapshotIdHexes : List (List Char)) :
    generate_passes resCfg imgRes snapshotIdHexes [] =
      snapshotIdHexes.map (fun idHex =>
        ⟨none, resCfg, render_file_base_name idHex 0⟩) := by
  unfold generate_passes
  induction snapshotIdHexes with
  | nil => rfl
  | cons idHex rest ih =>
    rw [List.flatMap_cons, List.map_cons, ih]
    rfl

/-- C9: the derived output basename is injective on
`(snapshot.id.hex, background_index)` pairs: for two 32-character hex ids,
the basenames coincide exactly when both the ids and the background indices
coincide (determinism is immediate since the name is a pure function of the
pair). -/
theorem claim_C9 (h1 h2 : List Char) (i j : ℕ)
    (hl1 : h1.length = 32) (hl2 : h2.length = 32) :
    render_file_base_name h1 i = render_file_base_name h2 j ↔
      h1 = h2 ∧ i = j := by
  constructor
  · intro he
    unfold render_file_base_name at he
    rw [List.append_assoc, List.append_assoc] at he
    obtain ⟨hh, ht⟩ := List.append_inj he (by rw [hl1, hl2])
    refine ⟨hh, ?_⟩
    simp only [List.cons_append, List.nil_append, List.cons.injEq] at ht
    exact padDec4_inj ht.2
  · rintro ⟨rfl, rfl⟩
    rfl

/-- Witness for C9: two concrete 32-character ids. -/
theorem claim_C9_witness :
    render_file_base_name (List.replicate 32 'a') 1 =
        render_file_base_name (List.replicate 32 'b') 2 ↔
      List.replicate 32 'a' = List.replicate 32 'b' ∧ 1 = 2 :=
  claim_C9 (List.replicate 32 'a') (List.replicate 32 'b') 1 2
    (List.length_replicate 32 'a') (List.length_replicate 32 'b')

end DataGen
